import Mathlib

set_option autoImplicit false

namespace RecipeSharing

/-! Shallow embedding of the recipe-sharing service (Foxsy1/recipe_sharing).
Identifiers (Mongo ObjectIds) are modelled as natural numbers, dates as
natural-number timestamps, JS numbers as rationals. Each controller is
embedded as a pure function over explicit stores; mongoose documents become
Lean structures carrying the fields the verified operations read or write. -/

abbrev UserId := Nat
abbrev RecipeId := Nat
abbrev CommentId := Nat
abbrev Timestamp := Nat

/-- one entry of recipe.ratings: subdocument of recipeSchema
(userId, rating, createdAt; the optional review is never written by the
rateRecipe controller, which stores only these three fields). -/
structure Rating where
  userId : UserId
  rating : ℚ
  createdAt : Timestamp
deriving Repr, DecidableEq

/-- an ingredient subdocument; only the name field is read by the verified
query paths (buildSearchFilter queries the path ingredients.name). -/
structure Ingredient where
  name : String
deriving Repr, DecidableEq

/-- a Recipe document (recipe-types.model.ts IRecipe), restricted to the
fields the verified controllers and queries touch. -/
structure Recipe where
  id : RecipeId
  author : UserId
  title : String
  description : String
  ingredients : List Ingredient
  cuisineType : String
  mealType : List String
  dietaryRestrictions : List String
  tags : List String
  difficulty : String
  prepTime : Nat
  cookTime : Nat
  ratings : List Rating
  likes : List UserId
  views : Nat
  isPublic : Bool
  isPublished : Bool
deriving Repr, DecidableEq

/-- JS Math.round on a rational: round half toward positive infinity,
that is floor(x + 1/2). All rounded quantities here are nonnegative. -/
def jsRound (q : ℚ) : ℤ := ⌊q + 1 / 2⌋

/-- the reduce((acc, rating) => acc + rating.rating, 0) accumulation used by
the averageRating virtual in recipe-methods.model.ts. -/
def sumRatings (l : List Rating) : ℚ :=
  l.foldl (fun acc r => acc + r.rating) 0

/-- the recipeSchema virtual averageRating: 0 when the ratings list is
empty, otherwise Math.round((sum / length) * 10) / 10. -/
def averageRating (r : Recipe) : ℚ :=
  if r.ratings.length = 0 then 0
  else (jsRound (sumRatings r.ratings / (r.ratings.length : ℚ) * 10) : ℚ) / 10

/-- Spec-side definition (for the refinement claim on averageRating):
round1 rounds a rational to one decimal place, half up. -/
def round1 (q : ℚ) : ℚ := (⌊q * 10 + 1 / 2⌋ : ℚ) / 10

/-- Spec-side definition: the mean of a list of rationals (0 when empty,
since division by zero is zero in Lean rationals). -/
def specMean (l : List ℚ) : ℚ := l.sum / (l.length : ℚ)

/-- Spec-side definition, following the spec text: averageRating equals
round1(mean(ratings.value)), defined as 0 when the ratings list is empty. -/
def specAverageRating (l : List Rating) : ℚ :=
  if l = [] then 0 else round1 (specMean (l.map Rating.rating))

theorem sumRatings_eq_sum_map (l : List Rating) :
    sumRatings l = (l.map Rating.rating).sum := by
  have h : ∀ (l : List Rating) (a : ℚ),
      l.foldl (fun acc r => acc + r.rating) a = a + (l.map Rating.rating).sum := by
    intro l
    induction l with
    | nil => intro a; simp
    | cons x xs ih =>
      intro a
      simp only [List.foldl_cons, List.map_cons, List.sum_cons, ih]
      ring
  simpa [sumRatings] using h l 0

/-- C1: for every recipe, the derived averageRating equals the mean of the
rating values rounded to one decimal place, equals 0 when the ratings list
is empty, and is a function of the ratings list alone (derived on read,
never stored). -/
theorem averageRating_correct :
    (∀ r : Recipe, averageRating r = specAverageRating r.ratings) ∧
    (∀ r : Recipe, r.ratings = [] → averageRating r = 0) ∧
    (∀ r₁ r₂ : Recipe, r₁.ratings = r₂.ratings → averageRating r₁ = averageRating r₂) := by
  have hmain : ∀ r : Recipe, averageRating r = specAverageRating r.ratings := by
    intro r
    by_cases h : r.ratings = []
    · simp [averageRating, specAverageRating, h]
    · have hlen : r.ratings.length ≠ 0 := by
        simpa using fun hc => h (List.length_eq_zero.mp hc)
      simp only [averageRating, specAverageRating]
      rw [if_neg hlen, if_neg h, sumRatings_eq_sum_map]
      unfold jsRound round1 specMean
      rw [List.length_map]
  refine ⟨hmain, ?_, ?_⟩
  · intro r hr
    rw [hmain r, hr]
    simp [specAverageRating]
  · intro r₁ r₂ h
    rw [hmain r₁, hmain r₂, h]

/-- Witness for averageRating_correct at a concrete recipe. -/
def sampleRecipe : Recipe :=
  { id := 1, author := 1, title := "Pasta", description := "Simple pasta"
    ingredients := [⟨"pasta"⟩], cuisineType := "Italian"
    mealType := ["Dinner"], dietaryRestrictions := [], tags := ["quick"]
    difficulty := "Easy", prepTime := 10, cookTime := 20
    ratings := [⟨2, 5, 0⟩, ⟨3, 4, 1⟩], likes := [2], views := 7
    isPublic := true, isPublished := true }

theorem averageRating_correct_witness :
    averageRating sampleRecipe = specAverageRating sampleRecipe.ratings ∧
    averageRating { sampleRecipe with ratings := [] } = 0 ∧
    averageRating sampleRecipe = averageRating { sampleRecipe with views := 0 } := by
  refine ⟨averageRating_correct.1 sampleRecipe, ?_, ?_⟩
  · exact averageRating_correct.2.1 _ rfl
  · exact averageRating_correct.2.2 _ _ rfl

/-- notification type strings passed by the controllers. -/
inductive NotifKind where
  | rating
  | like
  | comment
  | reply
  | follow
deriving Repr, DecidableEq

/-- a Notification record, restricted to the fields the verified claims
read; the rendered message string is claim-irrelevant and omitted. -/
structure Notif where
  recipient : UserId
  sender : UserId
  type : NotifKind
  relatedRecipe : Option RecipeId
  relatedComment : Option CommentId
deriving Repr, DecidableEq

/-- error classes of error.middleware thrown by the embedded controllers:
NotFoundError, ValidationError, AuthorizationError, ConflictError. -/
inductive AppErr where
  | notFound
  | validation
  | authorization
  | conflict
deriving Repr, DecidableEq

/-- core of the rateRecipe controller on recipe.ratings: findIndex on
userId; when found, assign rating and createdAt in place at that index;
otherwise push a new entry at the end. -/
def ratePure (u : UserId) (v : ℚ) (t : Timestamp) : List Rating → List Rating
  | [] => [⟨u, v, t⟩]
  | r :: rs => if r.userId == u then ⟨r.userId, v, t⟩ :: rs else r :: ratePure u v t rs

/-- response data of the rateRecipe controller. -/
structure RateResult where
  recipe : Recipe
  notifs : List Notif
  averageRating : ℚ
  totalRatings : Nat
deriving Repr

/-- the rateRecipe controller: ValidationError unless the value is in
[1, 5] (the falsy check on rating 0 is subsumed by rating < 1), NotFound
when the recipe is absent; otherwise update or append the rating and,
only when the entry is new and the rater is not the author, create a
rating notification for the author. -/
def rateRecipe (recipe? : Option Recipe) (userId : UserId) (rating : ℚ)
    (now : Timestamp) : Except AppErr RateResult :=
  if rating < 1 ∨ 5 < rating then .error .validation
  else
    match recipe? with
    | none => .error .notFound
    | some recipe =>
      let hasExisting := recipe.ratings.any (fun rr => rr.userId == userId)
      let recipe' := { recipe with ratings := ratePure userId rating now recipe.ratings }
      let notifs :=
        if hasExisting then []
        else if recipe.author == userId then []
        else [⟨recipe.author, userId, .rating, some recipe.id, none⟩]
      .ok ⟨recipe', notifs, averageRating recipe', recipe'.ratings.length⟩

/-- invariant of C2: at most one ratings entry per user. -/
def ratingsOk (l : List Rating) : Prop :=
  ∀ u : UserId, List.countP (fun r => r.userId == u) l ≤ 1

theorem countP_ratePure (l : List Rating) (u : UserId) (v : ℚ) (t : Timestamp)
    (w : UserId) :
    List.countP (fun r => r.userId == w) (ratePure u v t l) =
      if l.any (fun r => r.userId == u) then List.countP (fun r => r.userId == w) l
      else List.countP (fun r => r.userId == w) l + (if u = w then 1 else 0) := by
  induction l with
  | nil =>
    by_cases h : u = w <;> simp [ratePure, List.countP_cons, h]
  | cons r rs ih =>
    by_cases h : r.userId == u
    · have hu : r.userId = u := by simpa using h
      simp [ratePure, h, List.countP_cons, List.any_cons, hu]
    · have hstep : ratePure u v t (r :: rs) = r :: ratePure u v t rs := by
        simp [ratePure, h]
      have hany : ((r.userId == u) || rs.any fun rr => rr.userId == u)
          = (rs.any fun rr => rr.userId == u) := by
        simp [h]
      rw [hstep, List.any_cons, hany]
      simp only [List.countP_cons, ih]
      split <;> split <;> ring

theorem ratingsOk_ratePure (l : List Rating) (u : UserId) (v : ℚ)
    (t : Timestamp) (hl : ratingsOk l) : ratingsOk (ratePure u v t l) := by
  intro w
  rw [countP_ratePure]
  split
  · exact hl w
  · rename_i hany
    by_cases hw : u = w
    · have h0 : List.countP (fun r => r.userId == w) l = 0 := by
        rw [List.countP_eq_zero]
        intro a ha
        have := List.any_eq_false.mp (Bool.eq_false_iff.mpr hany) a ha
        simpa [hw] using this
      simp [h0, hw]
    · simpa [hw] using hl w

theorem rateRecipe_ok_ratings (recipe : Recipe) (u : UserId) (v : ℚ)
    (t : Timestamp) (res : RateResult)
    (h : rateRecipe (some recipe) u v t = .ok res) :
    res.recipe.ratings = ratePure u v t recipe.ratings := by
  unfold rateRecipe at h
  split at h
  · exact absurd h (by simp)
  · simp only [Except.ok.injEq] at h
    rw [← h]

/-- fold of the rateRecipe controller over a sequence of (user, value,
time) calls, threading the recipe document; failed calls leave it
unchanged. -/
def runRates (recipe : Recipe) : List (UserId × ℚ × Timestamp) → Recipe
  | [] => recipe
  | (u, v, t) :: rest =>
    match rateRecipe (some recipe) u v t with
    | .ok res => runRates res.recipe rest
    | .error _ => runRates recipe rest

theorem ratingsOk_runRates (recipe : Recipe) (ops : List (UserId × ℚ × Timestamp))
    (h : ratingsOk recipe.ratings) : ratingsOk (runRates recipe ops).ratings := by
  induction ops generalizing recipe with
  | nil => exact h
  | cons op rest ih =>
    obtain ⟨u, v, t⟩ := op
    show ratingsOk (runRates recipe ((u, v, t) :: rest)).ratings
    rw [runRates]
    cases hc : rateRecipe (some recipe) u v t with
    | ok res =>
      refine ih res.recipe ?_
      rw [rateRecipe_ok_ratings recipe u v t res hc]
      exact ratingsOk_ratePure _ _ _ _ h
    | error e => exact ih recipe h

theorem ratePure_overwrite (l : List Rating) (u : UserId) (v : ℚ) (t : Timestamp)
    (h : l.any (fun rr => rr.userId == u) = true) :
    ∃ i rr, l[i]? = some rr ∧ rr.userId = u ∧
      ratePure u v t l = l.set i ⟨rr.userId, v, t⟩ := by
  induction l with
  | nil => simp at h
  | cons r rs ih =>
    by_cases hr : r.userId == u
    · exact ⟨0, r, by simp, by simpa using hr, by simp [ratePure, hr]⟩
    · have hrs : rs.any (fun rr => rr.userId == u) = true := by
        simpa [List.any_cons, hr] using h
      obtain ⟨i, rr, hget, huid, heq⟩ := ih hrs
      exact ⟨i + 1, rr, by simpa using hget, huid, by simp [ratePure, hr, heq]⟩

/-- C2: after any sequence of rateRecipe calls starting from a recipe
whose ratings list has at most one entry per user (in particular a fresh
recipe with no ratings), the ratings list still has at most one entry per
user; and a call by a user who already has an entry overwrites the value
and timestamp of that entry in place (List.set at its index) rather than
appending a duplicate. -/
theorem rate_unique_per_user :
    (∀ (recipe : Recipe), ratingsOk recipe.ratings →
      ∀ (ops : List (UserId × ℚ × Timestamp)), ratingsOk (runRates recipe ops).ratings) ∧
    (∀ (l : List Rating) (u : UserId) (v : ℚ) (t : Timestamp),
      l.any (fun rr => rr.userId == u) = true →
      ∃ i rr, l[i]? = some rr ∧ rr.userId = u ∧
        ratePure u v t l = l.set i ⟨rr.userId, v, t⟩ ∧
        (ratePure u v t l).length = l.length) := by
  constructor
  · intro recipe h ops
    exact ratingsOk_runRates recipe ops h
  · intro l u v t h
    obtain ⟨i, rr, hget, huid, heq⟩ := ratePure_overwrite l u v t h
    exact ⟨i, rr, hget, huid, heq, by rw [heq, List.length_set]⟩

/-- Witness for rate_unique_per_user: a fresh recipe rated twice by user 2
keeps at most one entry for user 2, and re-rating a list that already has
an entry for user 2 preserves its length. -/
theorem rate_unique_per_user_witness :
    List.countP (fun rr => rr.userId == 2)
      (runRates { sampleRecipe with ratings := [] } [(2, 5, 0), (2, 4, 1)]).ratings ≤ 1 ∧
    (ratePure 2 1 5 sampleRecipe.ratings).length = sampleRecipe.ratings.length := by
  constructor
  · exact rate_unique_per_user.1 _ (fun u => by simp) _ 2
  · obtain ⟨i, rr, -, -, -, hlen⟩ :=
      rate_unique_per_user.2 sampleRecipe.ratings 2 1 5 (by decide)
    exact hlen

/-- core of the toggleLikeRecipe controller on recipe.likes: findIndex
followed by splice removes the first occurrence when present; push appends
at the end when absent. -/
def toggleLikes (u : UserId) : List UserId → List UserId
  | [] => [u]
  | x :: xs => if x == u then xs else x :: toggleLikes u xs

/-- response data of the toggleLikeRecipe controller. -/
structure ToggleLikeResult where
  recipe : Recipe
  notifs : List Notif
  isLiked : Bool
  likesCount : Nat
deriving Repr, DecidableEq

/-- the toggleLikeRecipe controller: NotFound when the recipe is absent;
otherwise remove the like when present, else add it and, when the liker is
not the author, create a like notification for the author. This variant
over-approximates the awaited Notification.create as succeeding, which is
sound for the notification-absence analysis; the variant faithful to the
notificationSchema validation is toggleLikeRecipeRun below. -/
def toggleLikeRecipe (recipe? : Option Recipe) (userId : UserId) :
    Except AppErr ToggleLikeResult :=
  match recipe? with
  | none => .error .notFound
  | some recipe =>
    let wasLiked := recipe.likes.any (fun i => i == userId)
    let newLikes := toggleLikes userId recipe.likes
    let notifs :=
      if wasLiked then []
      else if recipe.author == userId then []
      else [⟨recipe.author, userId, .like, some recipe.id, none⟩]
    let recipe' := { recipe with likes := newLikes }
    .ok ⟨recipe', notifs, !wasLiked, newLikes.length⟩

theorem toggleLikes_of_not_mem (u : UserId) (xs : List UserId) (h : u ∉ xs) :
    toggleLikes u xs = xs ++ [u] := by
  induction xs with
  | nil => simp [toggleLikes]
  | cons x xs ih =>
    have hx : ¬(x == u) = true := by
      simp only [beq_iff_eq]
      exact fun hc => h (hc ▸ List.mem_cons_self x xs)
    have hxs : u ∉ xs := fun hc => h (List.mem_cons_of_mem x hc)
    simp [toggleLikes, hx, ih hxs]

theorem toggleLikes_eq_erase (u : UserId) (xs : List UserId) (h : u ∈ xs) :
    toggleLikes u xs = xs.erase u := by
  induction xs with
  | nil => simp at h
  | cons x xs ih =>
    by_cases hx : (x == u) = true
    · simp [toggleLikes, hx, List.erase_cons, beq_iff_eq.mp hx]
    · have hxs : u ∈ xs := by
        rcases List.mem_cons.mp h with h1 | h1
        · exact absurd (beq_iff_eq.mpr h1.symm) hx
        · exact h1
      have hxne : ¬(x = u) := fun hc => hx (beq_iff_eq.mpr hc)
      simp [toggleLikes, hx, List.erase_cons, hxne, ih hxs]

theorem toggleLikes_append_of_not_mem (u : UserId) (xs : List UserId)
    (h : u ∉ xs) : toggleLikes u (xs ++ [u]) = xs := by
  induction xs with
  | nil => simp [toggleLikes]
  | cons x xs ih =>
    have hx : ¬(x == u) = true := by
      simp only [beq_iff_eq]
      exact fun hc => h (hc ▸ List.mem_cons_self x xs)
    have hxs : u ∉ xs := fun hc => h (List.mem_cons_of_mem x hc)
    simp [toggleLikes, hx, ih hxs]

theorem toggleLikes_twice (u : UserId) (xs : List UserId)
    (h : xs.count u ≤ 1) :
    List.Perm (toggleLikes u (toggleLikes u xs)) xs := by
  by_cases hmem : u ∈ xs
  · have h1 : toggleLikes u xs = xs.erase u := toggleLikes_eq_erase u xs hmem
    have hcount : xs.count u = 1 :=
      le_antisymm h (List.count_pos_iff.mpr hmem)
    have h2 : u ∉ xs.erase u := by
      intro hc
      have := List.count_erase_self u xs
      have hpos := List.count_pos_iff.mpr hc
      omega
    rw [h1, toggleLikes_of_not_mem u _ h2]
    exact (List.perm_append_singleton u (xs.erase u)).trans
      (List.perm_cons_erase hmem).symm
  · rw [toggleLikes_of_not_mem u xs hmem,
      toggleLikes_append_of_not_mem u xs hmem]

/-- the like-list update alone is involutive on lists holding the user at
most once; the controller nevertheless fails to restore the set, because
its notification insert aborts the request before the save (see
toggleLikeRecipeRun below). -/
theorem toggleLikes_twice_length (u : UserId) (xs : List UserId)
    (h : xs.count u ≤ 1) :
    (toggleLikes u (toggleLikes u xs)).length = xs.length :=
  (toggleLikes_twice u xs h).length_eq

/-- a Comment document (comment.model.ts), restricted to the fields the
verified operations touch. -/
structure Comment where
  id : CommentId
  content : String
  author : UserId
  recipe : RecipeId
  parentComment : Option CommentId
  likes : List UserId
  isEdited : Bool
  createdAt : Timestamp
deriving Repr, DecidableEq

/-- the Comment.findById lookup over a comment store. -/
def findComment (store : List Comment) (cid : CommentId) : Option Comment :=
  store.find? (fun c => c.id == cid)

/-- the commentSchema static findReplies: every comment whose
parentComment references the given comment id. -/
def findReplies (store : List Comment) (cid : CommentId) : List Comment :=
  store.filter (fun c => c.parentComment == some cid)

/-- the Recipe.findById lookup over a recipe store. -/
def findRecipe (recipes : List Recipe) (rid : RecipeId) : Option Recipe :=
  recipes.find? (fun r => r.id == rid)

/-- response data of the addComment controller. -/
structure AddCommentResult where
  store : List Comment
  notifs : List Notif
  comment : Comment
deriving Repr, DecidableEq

/-- the addComment controller: NotFound when the recipe is absent; when a
parentComment id is given, ValidationError unless that comment exists and
belongs to the same recipe (the source checks nothing else about the
parent); then create the comment, notify the recipe author unless the
commenter is the author and, for replies, notify the parent comment
author unless the commenter is that author. This variant over-approximates
the awaited Notification.create calls as succeeding, which is sound for
the notification-absence analysis; the variant faithful to the
notificationSchema validation is addCommentRun below. -/
def addComment (recipes : List Recipe) (store : List Comment) (recipeId : RecipeId)
    (userId : UserId) (content : String) (parentComment : Option CommentId)
    (newId : CommentId) (now : Timestamp) : Except AppErr AddCommentResult :=
  match findRecipe recipes recipeId with
  | none => .error .notFound
  | some recipe =>
    let parentOk : Bool :=
      match parentComment with
      | none => true
      | some pid =>
        match findComment store pid with
        | none => false
        | some parent => parent.recipe == recipeId
    if !parentOk then .error .validation
    else
      let c : Comment := ⟨newId, content, userId, recipeId, parentComment, [], false, now⟩
      let authorNotifs :=
        if recipe.author == userId then []
        else [⟨recipe.author, userId, .comment, some recipeId, some newId⟩]
      let replyNotifs :=
        match parentComment with
        | none => []
        | some pid =>
          match findComment store pid with
          | none => []
          | some parent =>
            if parent.author == userId then []
            else [⟨parent.author, userId, .reply, some recipeId, some newId⟩]
      .ok ⟨store ++ [c], authorNotifs ++ replyNotifs, c⟩

/-- the deleteComment controller: NotFound when the comment is absent,
AuthorizationError unless the caller authored it; otherwise deleteMany of
every comment whose parentComment is this id, then delete the comment
itself. -/
def deleteComment (store : List Comment) (commentId : CommentId)
    (userId : UserId) : Except AppErr (List Comment) :=
  match findComment store commentId with
  | none => .error .notFound
  | some c =>
    if !(c.author == userId) then .error .authorization
    else
      .ok ((store.filter (fun x => !(x.parentComment == some commentId))).filter
        (fun x => !(x.id == commentId)))

/-- the likeComment controller: ValidationError when already liked; else
push the like and notify the comment author unless self-like. -/
def likeComment (comment? : Option Comment) (userId : UserId) :
    Except AppErr (Comment × List Notif) :=
  match comment? with
  | none => .error .notFound
  | some c =>
    if c.likes.any (fun i => i == userId) then .error .validation
    else
      let c' := { c with likes := c.likes ++ [userId] }
      let notifs :=
        if c.author == userId then []
        else [⟨c.author, userId, .like, none, some c.id⟩]
      .ok (c', notifs)

/-- the toggleCommentLike controller: when liked, remove every occurrence
via filter; otherwise push the like and notify the comment author unless
self-like. -/
def toggleCommentLike (comment? : Option Comment) (userId : UserId) :
    Except AppErr (Comment × List Notif × Bool × Nat) :=
  match comment? with
  | none => .error .notFound
  | some c =>
    let isLiked := c.likes.any (fun i => i == userId)
    if isLiked then
      let c' := { c with likes := c.likes.filter (fun i => !(i == userId)) }
      .ok (c', [], !isLiked, c'.likes.length)
    else
      let c' := { c with likes := c.likes ++ [userId] }
      let notifs :=
        if c.author == userId then []
        else [⟨c.author, userId, .like, none, some c.id⟩]
      .ok (c', notifs, !isLiked, c'.likes.length)

/-- Counterexample data: a root comment on recipe 1 by user 8. -/
def cexRoot : Comment := ⟨1, "root text", 8, 1, none, [], false, 0⟩

/-- Counterexample data: a reply to cexRoot on recipe 1 by user 9. -/
def cexReply : Comment := ⟨2, "reply text", 9, 1, some 1, [], false, 1⟩

/-- Counterexample data: content of a reply to a reply. -/
def cexContent : String := "reply to a reply"

theorem addComment_no_recipe (recipes : List Recipe) (store : List Comment)
    (rid : RecipeId) (uid : UserId) (content : String)
    (parentComment : Option CommentId) (newId : CommentId) (now : Timestamp)
    (hr : findRecipe recipes rid = none) :
    addComment recipes store rid uid content parentComment newId now =
      .error .notFound := by
  simp [addComment, hr]

theorem addComment_no_parent (recipes : List Recipe) (store : List Comment)
    (rid : RecipeId) (uid : UserId) (content : String) (pid : CommentId)
    (newId : CommentId) (now : Timestamp) (recipe : Recipe)
    (hr : findRecipe recipes rid = some recipe)
    (hp : findComment store pid = none) :
    addComment recipes store rid uid content (some pid) newId now =
      .error .validation := by
  simp [addComment, hr, hp]

theorem addComment_wrong_recipe (recipes : List Recipe) (store : List Comment)
    (rid : RecipeId) (uid : UserId) (content : String) (pid : CommentId)
    (newId : CommentId) (now : Timestamp) (recipe : Recipe) (parent : Comment)
    (hr : findRecipe recipes rid = some recipe)
    (hp : findComment store pid = some parent)
    (hpr : parent.recipe ≠ rid) :
    addComment recipes store rid uid content (some pid) newId now =
      .error .validation := by
  simp [addComment, hr, hp, hpr]

theorem addComment_root_ok (recipes : List Recipe) (store : List Comment)
    (rid : RecipeId) (uid : UserId) (content : String)
    (newId : CommentId) (now : Timestamp) (recipe : Recipe)
    (hr : findRecipe recipes rid = some recipe) :
    addComment recipes store rid uid content none newId now =
      .ok ⟨store ++ [⟨newId, content, uid, rid, none, [], false, now⟩],
        (if recipe.author == uid then []
          else [⟨recipe.author, uid, .comment, some rid, some newId⟩]),
        ⟨newId, content, uid, rid, none, [], false, now⟩⟩ := by
  simp [addComment, hr]

theorem addComment_reply_ok (recipes : List Recipe) (store : List Comment)
    (rid : RecipeId) (uid : UserId) (content : String) (pid : CommentId)
    (newId : CommentId) (now : Timestamp) (recipe : Recipe) (parent : Comment)
    (hr : findRecipe recipes rid = some recipe)
    (hp : findComment store pid = some parent)
    (hpr : parent.recipe = rid) :
    addComment recipes store rid uid content (some pid) newId now =
      .ok ⟨store ++ [⟨newId, content, uid, rid, some pid, [], false, now⟩],
        (if recipe.author == uid then []
          else [⟨recipe.author, uid, .comment, some rid, some newId⟩]) ++
        (if parent.author == uid then []
          else [⟨parent.author, uid, .reply, some rid, some newId⟩]),
        ⟨newId, content, uid, rid, some pid, [], false, now⟩⟩ := by
  simp [addComment, hr, hp, hpr]

/-- C8: a successful deleteComment leaves no comment whose parentComment
references the deleted id (findReplies returns nothing) and removes the
comment itself (findComment returns none). -/
theorem deleteComment_cascades (store : List Comment) (cid : CommentId)
    (uid : UserId) (out : List Comment)
    (h : deleteComment store cid uid = .ok out) :
    findReplies out cid = [] ∧ findComment out cid = none := by
  unfold deleteComment at h
  cases hf : findComment store cid with
  | none => rw [hf] at h; exact absurd h (by simp)
  | some c =>
    rw [hf] at h
    by_cases ha : (c.author == uid) = true
    · simp only [ha, Bool.not_true, Bool.false_eq_true, if_false,
        Except.ok.injEq] at h
      rw [← h]
      constructor
      · rw [findReplies, List.filter_eq_nil_iff]
        intro a hmem
        have h1 := List.of_mem_filter (List.mem_of_mem_filter hmem)
        simp only [Bool.not_eq_true'] at h1
        simp [h1]
      · rw [findComment, List.find?_eq_none]
        intro a hmem
        have h1 := List.of_mem_filter hmem
        simpa using h1
    · simp [ha] at h

/-- Witness for deleteComment_cascades: deleting root comment 1 (author 8)
from the two-comment store removes both the root and its reply. -/
theorem deleteComment_cascades_witness :
    findReplies ([] : List Comment) 1 = [] ∧
    findComment ([] : List Comment) 1 = none :=
  deleteComment_cascades [cexRoot, cexReply] 1 8 [] rfl

/-- a User document (user.model.ts), restricted to the fields the verified
operations touch. -/
structure User where
  id : UserId
  username : String
  following : List UserId
  followers : List UserId
  favoriteRecipes : List RecipeId
deriving Repr, DecidableEq

/-- the User.findById lookup over a user store. -/
def findUser (users : List User) (uid : UserId) : Option User :=
  users.find? (fun u => u.id == uid)

/-- the mongo addToSet update primitive on a list field: append unless the
value is already present. -/
def addToSet (l : List Nat) (x : Nat) : List Nat :=
  if l.any (fun y => y == x) then l else l ++ [x]

/-- outcome of the followUser controller: the request result, the user
store as left by the call, and the notifications created. -/
structure FollowResult where
  result : Except AppErr Unit
  users : List User
  notifs : List Notif
deriving Repr

/-- the followUser controller: ValidationError on self-follow; NotFound
when the target or the current user is absent; ValidationError when
already following (the source throws ValidationError here, although
error.middleware also defines a ConflictError); otherwise addToSet the
target into following, addToSet the follower into the target followers
and create a follow notification. All checks precede all writes, so every
error outcome leaves the store unchanged and creates no notification. -/
def followUser (users : List User) (currentUserId targetId : UserId) :
    FollowResult :=
  if currentUserId == targetId then ⟨.error .validation, users, []⟩
  else
    match findUser users targetId with
    | none => ⟨.error .notFound, users, []⟩
    | some _ =>
      match findUser users currentUserId with
      | none => ⟨.error .notFound, users, []⟩
      | some current =>
        if current.following.any (fun i => i == targetId) then
          ⟨.error .validation, users, []⟩
        else
          let users1 := users.map (fun u =>
            if u.id == currentUserId then
              { u with following := addToSet u.following targetId }
            else u)
          let users2 := users1.map (fun u =>
            if u.id == targetId then
              { u with followers := addToSet u.followers currentUserId }
            else u)
          ⟨.ok (), users2, [⟨targetId, currentUserId, .follow, none, none⟩]⟩

/-- Counterexample data: user 1 already following user 2. -/
def cexUserA : User := ⟨1, "alice", [2], [], []⟩

/-- Counterexample data: user 2, followed by user 1. -/
def cexUserB : User := ⟨2, "bob", [], [1], []⟩

/-- C7 counterexample: when user 1 already follows user 2, followUser
fails with ValidationError, not with the Conflict error class the claim
names (ConflictError exists in error.middleware but is not used here). -/
theorem followUser_duplicate_cex :
    (followUser [cexUserA, cexUserB] 1 2).result =
      Except.error AppErr.validation ∧
    AppErr.validation ≠ AppErr.conflict :=
  ⟨rfl, by decide⟩

/-- C7 amended: follow(a, b) fails with a ValidationError when b is
already in the following list of a, and on that failure the user store is
unchanged (so neither following nor followers sets change) and no
notification is created. -/
theorem followUser_already_following (users : List User) (a b : UserId)
    (tb current : User)
    (hne : (a == b) = false)
    (hb : findUser users b = some tb)
    (ha : findUser users a = some current)
    (hdup : current.following.any (fun i => i == b) = true) :
    followUser users a b = ⟨.error .validation, users, []⟩ := by
  simp [followUser, hne, hb, ha, hdup]

/-- Witness for followUser_already_following at the counterexample store. -/
theorem followUser_already_following_witness :
    followUser [cexUserA, cexUserB] 1 2 =
      ⟨.error .validation, [cexUserA, cexUserB], []⟩ :=
  followUser_already_following [cexUserA, cexUserB] 1 2 cexUserB cexUserA
    rfl rfl rfl rfl

theorem rateRecipe_notifs (r? : Option Recipe) (u : UserId) (v : ℚ)
    (t : Timestamp) (res : RateResult) (h : rateRecipe r? u v t = .ok res) :
    ∀ n ∈ res.notifs, n.recipient ≠ n.sender := by
  unfold rateRecipe at h
  split at h
  · exact absurd h (by simp)
  · cases r? with
    | none => exact absurd h (by simp)
    | some recipe =>
      simp only [Except.ok.injEq] at h
      subst h
      intro n hn
      simp only at hn
      by_cases hex : recipe.ratings.any (fun rr => rr.userId == u) = true
      · simp [hex] at hn
      · by_cases hau : (recipe.author == u) = true
        · simp [hex, hau] at hn
        · simp only [hex, hau, Bool.false_eq_true, if_false,
            List.mem_singleton] at hn
          subst hn
          simpa using fun hc => hau (beq_iff_eq.mpr hc)

theorem toggleLikeRecipe_notifs (r? : Option Recipe) (u : UserId)
    (res : ToggleLikeResult) (h : toggleLikeRecipe r? u = .ok res) :
    ∀ n ∈ res.notifs, n.recipient ≠ n.sender := by
  cases r? with
  | none => exact absurd h (by simp [toggleLikeRecipe])
  | some recipe =>
    unfold toggleLikeRecipe at h
    simp only [Except.ok.injEq] at h
    subst h
    intro n hn
    simp only at hn
    by_cases hw : recipe.likes.any (fun i => i == u) = true
    · simp [hw] at hn
    · by_cases hau : (recipe.author == u) = true
      · simp [hw, hau] at hn
      · simp only [hw, hau, Bool.false_eq_true, if_false,
          List.mem_singleton] at hn
        subst hn
        simpa using fun hc => hau (beq_iff_eq.mpr hc)

theorem likeComment_notifs (c? : Option Comment) (u : UserId)
    (out : Comment × List Notif) (h : likeComment c? u = .ok out) :
    ∀ n ∈ out.2, n.recipient ≠ n.sender := by
  cases c? with
  | none => exact absurd h (by simp [likeComment])
  | some c =>
    simp only [likeComment] at h
    split at h
    · exact absurd h (by simp)
    · simp only [Except.ok.injEq] at h
      subst h
      intro n hn
      simp only at hn
      by_cases hau : (c.author == u) = true
      · simp [hau] at hn
      · simp only [hau, Bool.false_eq_true, if_false,
          List.mem_singleton] at hn
        subst hn
        simpa using fun hc => hau (beq_iff_eq.mpr hc)

theorem toggleCommentLike_notifs (c? : Option Comment) (u : UserId)
    (out : Comment × List Notif × Bool × Nat)
    (h : toggleCommentLike c? u = .ok out) :
    ∀ n ∈ out.2.1, n.recipient ≠ n.sender := by
  cases c? with
  | none => exact absurd h (by simp [toggleCommentLike])
  | some c =>
    simp only [toggleCommentLike] at h
    split at h
    · simp only [Except.ok.injEq] at h
      subst h
      intro n hn
      simp at hn
    · simp only [Except.ok.injEq] at h
      subst h
      intro n hn
      simp only at hn
      by_cases hau : (c.author == u) = true
      · simp [hau] at hn
      · simp only [hau, Bool.false_eq_true, if_false,
          List.mem_singleton] at hn
        subst hn
        simpa using fun hc => hau (beq_iff_eq.mpr hc)

theorem addComment_notifs (recipes : List Recipe) (store : List Comment)
    (rid : RecipeId) (uid : UserId) (content : String)
    (parent? : Option CommentId) (newId : CommentId) (now : Timestamp)
    (res : AddCommentResult)
    (h : addComment recipes store rid uid content parent? newId now = .ok res) :
    ∀ n ∈ res.notifs, n.recipient ≠ n.sender := by
  cases hr : findRecipe recipes rid with
  | none =>
    rw [addComment_no_recipe recipes store rid uid content parent? newId now hr] at h
    exact absurd h (by simp)
  | some recipe =>
    cases parent? with
    | none =>
      rw [addComment_root_ok recipes store rid uid content newId now recipe hr] at h
      simp only [Except.ok.injEq] at h
      subst h
      intro n hn
      simp only at hn
      by_cases hau : (recipe.author == uid) = true
      · simp [hau] at hn
      · simp only [hau, Bool.false_eq_true, if_false,
          List.mem_singleton] at hn
        subst hn
        simpa using fun hc => hau (beq_iff_eq.mpr hc)
    | some pid =>
      cases hp : findComment store pid with
      | none =>
        rw [addComment_no_parent recipes store rid uid content pid newId now
          recipe hr hp] at h
        exact absurd h (by simp)
      | some parent =>
        by_cases hpr : parent.recipe = rid
        · rw [addComment_reply_ok recipes store rid uid content pid newId now
            recipe parent hr hp hpr] at h
          simp only [Except.ok.injEq] at h
          subst h
          intro n hn
          simp only [List.mem_append] at hn
          rcases hn with hn | hn
          · by_cases hau : (recipe.author == uid) = true
            · simp [hau] at hn
            · simp only [hau, Bool.false_eq_true, if_false,
                List.mem_singleton] at hn
              subst hn
              simpa using fun hc => hau (beq_iff_eq.mpr hc)
          · by_cases hau : (parent.author == uid) = true
            · simp [hau] at hn
            · simp only [hau, Bool.false_eq_true, if_false,
                List.mem_singleton] at hn
              subst hn
              simpa using fun hc => hau (beq_iff_eq.mpr hc)
        · rw [addComment_wrong_recipe recipes store rid uid content pid newId now
            recipe parent hr hp hpr] at h
          exact absurd h (by simp)

theorem followUser_notifs (users : List User) (a b : UserId) :
    ∀ n ∈ (followUser users a b).notifs, n.recipient ≠ n.sender := by
  unfold followUser
  by_cases hab : (a == b) = true
  · simp [hab]
  · simp only [hab, Bool.false_eq_true, if_false]
    cases findUser users b with
    | none => simp
    | some tb =>
      cases findUser users a with
      | none => simp
      | some current =>
        by_cases hdup : current.following.any (fun i => i == b) = true
        · simp [hdup]
        · simp only [hdup, Bool.false_eq_true, if_false, List.mem_singleton]
          intro n hn
          subst hn
          simpa using fun hc => hab (beq_iff_eq.mpr hc.symm)

/-- an engagement or social action that can create notifications; each
constructor carries the inputs of the corresponding embedded controller. -/
inductive Action where
  | rate (recipe? : Option Recipe) (userId : UserId) (value : ℚ) (now : Timestamp)
  | toggleLike (recipe? : Option Recipe) (userId : UserId)
  | addCmt (recipes : List Recipe) (store : List Comment) (recipeId : RecipeId)
      (userId : UserId) (content : String) (parentComment : Option CommentId)
      (newId : CommentId) (now : Timestamp)
  | likeCmt (comment? : Option Comment) (userId : UserId)
  | toggleCmtLike (comment? : Option Comment) (userId : UserId)
  | follow (users : List User) (a b : UserId)

/-- notifications created by one action (none when the action fails). -/
def emittedNotifs : Action → List Notif
  | .rate r? u v t =>
    match rateRecipe r? u v t with
    | .ok res => res.notifs
    | .error _ => []
  | .toggleLike r? u =>
    match toggleLikeRecipe r? u with
    | .ok res => res.notifs
    | .error _ => []
  | .addCmt recipes store rid uid content parent newId now =>
    match addComment recipes store rid uid content parent newId now with
    | .ok res => res.notifs
    | .error _ => []
  | .likeCmt c? u =>
    match likeComment c? u with
    | .ok out => out.2
    | .error _ => []
  | .toggleCmtLike c? u =>
    match toggleCommentLike c? u with
    | .ok out => out.2.1
    | .error _ => []
  | .follow users a b => (followUser users a b).notifs

/-- C3: no operation (rating, liking a recipe, commenting, replying,
liking a comment, or following) ever creates a notification whose
recipient equals its sender. -/
theorem no_self_notification (act : Action) (n : Notif)
    (hmem : n ∈ emittedNotifs act) : n.recipient ≠ n.sender := by
  cases act with
  | rate r? u v t =>
    simp only [emittedNotifs] at hmem
    cases h : rateRecipe r? u v t with
    | ok res =>
      rw [h] at hmem
      exact rateRecipe_notifs r? u v t res h n hmem
    | error e => rw [h] at hmem; simp at hmem
  | toggleLike r? u =>
    simp only [emittedNotifs] at hmem
    cases h : toggleLikeRecipe r? u with
    | ok res =>
      rw [h] at hmem
      exact toggleLikeRecipe_notifs r? u res h n hmem
    | error e => rw [h] at hmem; simp at hmem
  | addCmt recipes store rid uid content parent newId now =>
    simp only [emittedNotifs] at hmem
    cases h : addComment recipes store rid uid content parent newId now with
    | ok res =>
      rw [h] at hmem
      exact addComment_notifs recipes store rid uid content parent newId now
        res h n hmem
    | error e => rw [h] at hmem; simp at hmem
  | likeCmt c? u =>
    simp only [emittedNotifs] at hmem
    cases h : likeComment c? u with
    | ok out =>
      rw [h] at hmem
      exact likeComment_notifs c? u out h n hmem
    | error e => rw [h] at hmem; simp at hmem
  | toggleCmtLike c? u =>
    simp only [emittedNotifs] at hmem
    cases h : toggleCommentLike c? u with
    | ok out =>
      rw [h] at hmem
      exact toggleCommentLike_notifs c? u out h n hmem
    | error e => rw [h] at hmem; simp at hmem
  | follow users a b =>
    exact followUser_notifs users a b n hmem

/-- Witness data: user 1 with empty follow lists, for a successful follow. -/
def cexUserFresh : User := ⟨1, "alice", [], [], []⟩

/-- Witness for no_self_notification: the follow notification created when
user 1 follows user 2 has distinct recipient and sender. -/
theorem no_self_notification_witness :
    Notif.recipient ⟨2, 1, .follow, none, none⟩ ≠
      Notif.sender ⟨2, 1, .follow, none, none⟩ :=
  no_self_notification (.follow [cexUserFresh, cexUserB] 1 2)
    ⟨2, 1, .follow, none, none⟩ (by decide)

/-- case-insensitive substring test, modelling a mongo regex match with
option i whose pattern is plain query text. -/
def containsCI (s pat : String) : Bool :=
  pat.toLower.isEmpty || decide (2 ≤ (s.toLower.splitOn pat.toLower).length)

/-- query parameters read by buildSearchFilter; none models an absent or
falsy parameter, which contributes no clause. -/
structure SearchQuery where
  keywords : Option String
  ingredients : Option (List String)
  cuisineType : Option String
  difficulty : Option String
  maxCookingTime : Option Nat
  dietaryRestrictions : Option (List String)
  mealType : Option (List String)
deriving Repr, DecidableEq

/-- the query with every parameter absent. -/
def emptyQuery : SearchQuery := ⟨none, none, none, none, none, none, none⟩

/-- semantics of the mongo filter object built by buildSearchFilter: a
recipe document matches iff every clause holds. The built filter always
contains isPublished: true; it never mentions isPublic. -/
def matchesSearchFilter (q : SearchQuery) (r : Recipe) : Bool :=
  r.isPublished &&
  (match q.keywords with
    | none => true
    | some kw =>
      containsCI r.title kw || containsCI r.description kw ||
        r.tags.any (fun tg => containsCI tg kw)) &&
  (match q.ingredients with
    | none => true
    | some pats =>
      r.ingredients.any (fun ing => pats.any (fun p => containsCI ing.name p))) &&
  (match q.cuisineType with
    | none => true
    | some ct => r.cuisineType == ct) &&
  (match q.difficulty with
    | none => true
    | some d => r.difficulty == d) &&
  (match q.maxCookingTime with
    | none => true
    | some m => decide (r.cookTime ≤ m)) &&
  (match q.dietaryRestrictions with
    | none => true
    | some ds => r.dietaryRestrictions.any (fun x => ds.contains x)) &&
  (match q.mealType with
    | none => true
    | some ms => r.mealType.any (fun x => ms.contains x))

/-- the getCategories distinct aggregation for cuisineType: distinct
values over recipes matching only isPublished: true, with falsy values
filtered out. -/
def categoriesCuisineTypes (rs : List Recipe) : List String :=
  (((rs.filter (fun r => r.isPublished)).map Recipe.cuisineType).dedup).filter
    (fun s => !s.isEmpty)

/-- the getCategories distinct aggregation for the array field mealType. -/
def categoriesMealTypes (rs : List Recipe) : List String :=
  ((((rs.filter (fun r => r.isPublished)).map Recipe.mealType).flatten).dedup).filter
    (fun s => !s.isEmpty)

/-- the getCategories distinct aggregation for dietaryRestrictions. -/
def categoriesDietary (rs : List Recipe) : List String :=
  ((((rs.filter (fun r => r.isPublished)).map Recipe.dietaryRestrictions).flatten).dedup).filter
    (fun s => !s.isEmpty)

/-- the getCategories distinct aggregation for tags. -/
def categoriesTags (rs : List Recipe) : List String :=
  ((((rs.filter (fun r => r.isPublished)).map Recipe.tags).flatten).dedup).filter
    (fun s => !s.isEmpty)

/-- Counterexample data: a published recipe whose isPublic flag is false. -/
def cexUnlisted : Recipe := { sampleRecipe with isPublic := false }

/-- C5 counterexample: the filter built by buildSearchFilter (here for the
empty query) accepts a recipe with isPublished = true and isPublic =
false, and getCategories aggregates its cuisine, refuting the claim that
discovery restricts to isPublic = true. -/
theorem discovery_isPublic_cex :
    matchesSearchFilter emptyQuery cexUnlisted = true ∧
    cexUnlisted.isPublic = false ∧
    "Italian" ∈ categoriesCuisineTypes [cexUnlisted] := by
  refine ⟨by decide, by decide, ?_⟩
  decide

/-- C5 amended: every discovery query restricts to isPublished = true (a
recipe failing that flag can never match the built filter, and every
category value comes from a recipe with isPublished = true), but the
isPublic flag is not part of the restriction. -/
theorem discovery_requires_published :
    (∀ (q : SearchQuery) (r : Recipe),
      matchesSearchFilter q r = true → r.isPublished = true) ∧
    (∀ (rs : List Recipe) (c : String), c ∈ categoriesCuisineTypes rs →
      ∃ r, r ∈ rs ∧ r.isPublished = true ∧ r.cuisineType = c) ∧
    (∀ (rs : List Recipe) (c : String), c ∈ categoriesMealTypes rs →
      ∃ r, r ∈ rs ∧ r.isPublished = true ∧ c ∈ r.mealType) ∧
    (∀ (rs : List Recipe) (c : String), c ∈ categoriesDietary rs →
      ∃ r, r ∈ rs ∧ r.isPublished = true ∧ c ∈ r.dietaryRestrictions) ∧
    (∀ (rs : List Recipe) (c : String), c ∈ categoriesTags rs →
      ∃ r, r ∈ rs ∧ r.isPublished = true ∧ c ∈ r.tags) := by
  refine ⟨?_, ?_, ?_, ?_, ?_⟩
  · intro q r h
    simp only [matchesSearchFilter, Bool.and_eq_true] at h
    exact h.1.1.1.1.1.1.1
  · intro rs c hc
    have h1 := List.mem_of_mem_filter hc
    rw [List.mem_dedup] at h1
    obtain ⟨r, hr, hcr⟩ := List.mem_map.mp h1
    exact ⟨r, List.mem_of_mem_filter hr, List.of_mem_filter hr, hcr⟩
  · intro rs c hc
    have h1 := List.mem_of_mem_filter hc
    rw [List.mem_dedup] at h1
    obtain ⟨l, hl, hcl⟩ := List.mem_flatten.mp h1
    obtain ⟨r, hr, hlr⟩ := List.mem_map.mp hl
    exact ⟨r, List.mem_of_mem_filter hr, List.of_mem_filter hr, hlr ▸ hcl⟩
  · intro rs c hc
    have h1 := List.mem_of_mem_filter hc
    rw [List.mem_dedup] at h1
    obtain ⟨l, hl, hcl⟩ := List.mem_flatten.mp h1
    obtain ⟨r, hr, hlr⟩ := List.mem_map.mp hl
    exact ⟨r, List.mem_of_mem_filter hr, List.of_mem_filter hr, hlr ▸ hcl⟩
  · intro rs c hc
    have h1 := List.mem_of_mem_filter hc
    rw [List.mem_dedup] at h1
    obtain ⟨l, hl, hcl⟩ := List.mem_flatten.mp h1
    obtain ⟨r, hr, hlr⟩ := List.mem_map.mp hl
    exact ⟨r, List.mem_of_mem_filter hr, List.of_mem_filter hr, hlr ▸ hcl⟩

/-- Witness for discovery_requires_published: the unlisted recipe that
matches the empty query indeed has isPublished = true, and the aggregated
cuisine Italian comes from a published recipe. -/
theorem discovery_requires_published_witness :
    cexUnlisted.isPublished = true ∧
    (∃ r, r ∈ [cexUnlisted] ∧ r.isPublished = true ∧ r.cuisineType = "Italian") := by
  constructor
  · exact discovery_requires_published.1 emptyQuery cexUnlisted (by decide)
  · exact discovery_requires_published.2.1 [cexUnlisted] "Italian" (by decide)

/-- the pagination object computed by getAllRecipes: totalPages is
Math.ceil(total / limit), modelled as the integer ceiling of the exact
rational quotient; hasNextPage is page < totalPages and hasPrevPage is
page > 1. -/
structure Pagination where
  page : Nat
  limit : Nat
  total : Nat
  totalPages : ℤ
  hasNextPage : Bool
  hasPrevPage : Bool
deriving Repr, DecidableEq

/-- pagination as computed at the end of getAllRecipes. -/
def mkPagination (page limit total : Nat) : Pagination :=
  let totalPages : ℤ := ⌈(total : ℚ) / (limit : ℚ)⌉
  ⟨page, limit, total, totalPages, decide ((page : ℤ) < totalPages),
    decide (1 < page)⟩

theorem ceil_div_eq_nat_ceil_div (t l : Nat) (hl : 1 ≤ l) :
    ⌈(t : ℚ) / (l : ℚ)⌉ = (((t + l - 1) / l : Nat) : ℤ) := by
  have hl0 : 0 < l := hl
  have hlq : (0 : ℚ) < (l : ℚ) := by exact_mod_cast hl0
  set q : Nat := (t + l - 1) / l with hq
  have hdm : q * l + (t + l - 1) % l = t + l - 1 := by
    rw [Nat.mul_comm]
    exact Nat.div_add_mod (t + l - 1) l
  have hmod : (t + l - 1) % l < l := Nat.mod_lt _ hl0
  have hbounds : t ≤ q * l ∧ q * l < t + l := by
    generalize hP : q * l = P at hdm
    generalize hM : (t + l - 1) % l = M at hdm hmod
    omega
  rw [Int.ceil_eq_iff]
  constructor
  · have h2 : (q : ℚ) * l < t + l := by exact_mod_cast hbounds.2
    have h3 : ((q : ℚ) - 1) * l = (q : ℚ) * l - l := by ring
    push_cast
    rw [lt_div_iff₀ hlq, h3]
    linarith
  · have hc2 : (t : ℚ) ≤ (q : ℚ) * l := by exact_mod_cast hbounds.1
    push_cast
    rw [div_le_iff₀ hlq]
    exact hc2

/-- C9: for every discovery result the pagination object satisfies
totalPages = ceil(total / limit) (the natural-number ceiling division
(total + limit - 1) / limit) and hasNextPage is true exactly when
page < totalPages. -/
theorem pagination_correct (page limit total : Nat) (h : 1 ≤ limit) :
    (mkPagination page limit total).totalPages =
      (((total + limit - 1) / limit : Nat) : ℤ) ∧
    ((mkPagination page limit total).hasNextPage = true ↔
      (page : ℤ) < (mkPagination page limit total).totalPages) := by
  constructor
  · exact ceil_div_eq_nat_ceil_div total limit h
  · simp [mkPagination]

/-- Witness for pagination_correct: page 1, limit 10, total 25. -/
theorem pagination_correct_witness :
    (mkPagination 1 10 25).totalPages = (((25 + 10 - 1) / 10 : Nat) : ℤ) ∧
    ((mkPagination 1 10 25).hasNextPage = true ↔
      (1 : ℤ) < (mkPagination 1 10 25).totalPages) :=
  pagination_correct 1 10 25 (by decide)

/-- the deleteRecipe controller: NotFound when absent, AuthorizationError
unless the caller authored the recipe; otherwise deleteMany of the
comments of the recipe, delete the recipe, and pull the recipe id from
the favoriteRecipes of every user (updateMany with a pull removes every
occurrence; users without the favorite are unchanged, so the
unconditional map is equivalent). -/
def deleteRecipe (recipes : List Recipe) (comments : List Comment)
    (users : List User) (recipeId : RecipeId) (userId : UserId) :
    Except AppErr (List Recipe × List Comment × List User) :=
  match findRecipe recipes recipeId with
  | none => .error .notFound
  | some recipe =>
    if !(recipe.author == userId) then .error .authorization
    else
      let comments2 := comments.filter (fun c => !(c.recipe == recipeId))
      let recipes2 := recipes.filter (fun r => !(r.id == recipeId))
      let users2 := users.map (fun u =>
        { u with favoriteRecipes := u.favoriteRecipes.filter (fun x => !(x == recipeId)) })
      .ok (recipes2, comments2, users2)

/-- C10: a successful deleteRecipe removes every comment of the recipe,
removes the recipe id from the favoriteRecipes of every user, and removes
the recipe itself. -/
theorem deleteRecipe_cascades (recipes : List Recipe) (comments : List Comment)
    (users : List User) (rid : RecipeId) (uid : UserId)
    (out : List Recipe × List Comment × List User)
    (h : deleteRecipe recipes comments users rid uid = .ok out) :
    (∀ c ∈ out.2.1, c.recipe ≠ rid) ∧
    (∀ u ∈ out.2.2, rid ∉ u.favoriteRecipes) ∧
    (∀ r ∈ out.1, r.id ≠ rid) := by
  cases hr : findRecipe recipes rid with
  | none =>
    rw [deleteRecipe, hr] at h
    exact absurd h (by simp)
  | some recipe =>
    rw [deleteRecipe, hr] at h
    by_cases hau : (recipe.author == uid) = true
    · simp only [hau, Bool.not_true, Bool.false_eq_true, if_false,
        Except.ok.injEq] at h
      subst h
      refine ⟨?_, ?_, ?_⟩
      · intro c hc
        have := List.of_mem_filter hc
        simpa using this
      · intro u hu hmem
        obtain ⟨u0, -, hu0⟩ := List.mem_map.mp hu
        rw [← hu0] at hmem
        simp only at hmem
        have := List.of_mem_filter hmem
        simp at this
      · intro r hrr
        have := List.of_mem_filter hrr
        simpa using this
    · simp [hau] at h

/-- Witness for deleteRecipe_cascades: user 1 deletes recipe 1; both
comments disappear and no favorites reference recipe 1. -/
theorem deleteRecipe_cascades_witness :
    (1 : RecipeId) ∉ cexUserA.favoriteRecipes :=
  (deleteRecipe_cascades [sampleRecipe] [cexRoot, cexReply] [cexUserA] 1 1
    ([], [], [cexUserA]) rfl).2.1 cexUserA (by simp)

/-- the type strings admitted by the enum of notificationSchema. -/
def notificationTypeEnum : List String :=
  ["recipe_like", "recipe_comment", "recipe_rating", "user_follow",
    "recipe_published", "comment_reply"]

/-- the document fields the controllers pass to Notification.create; the
controllers never supply a title and use the type strings rating, like,
comment, reply and follow. -/
structure NotifInput where
  recipient : UserId
  sender : UserId
  type : String
  title : Option String
  message : Option String
  relatedRecipe : Option RecipeId
  relatedComment : Option CommentId
deriving Repr

/-- a Notification document as persisted by a create that passes the
schema validation. -/
structure NotifDoc where
  recipient : UserId
  sender : UserId
  type : String
  title : String
  message : String
deriving Repr, DecidableEq

/-- mongoose document validation of notificationSchema applied by
Notification.create: title and message are required and type must lie in
the enum; otherwise the awaited create rejects with a validation error.
Every controller call site omits the title and passes a type outside the
enum, so these inserts always reject. -/
def notificationCreate (inp : NotifInput) : Except AppErr NotifDoc :=
  match inp.title, inp.message with
  | some t, some m =>
    if notificationTypeEnum.contains inp.type then
      .ok ⟨inp.recipient, inp.sender, inp.type, t, m⟩
    else .error .validation
  | _, _ => .error .validation

/-- message template of the like notification. -/
def likedMessage (title : String) : String := "liked your recipe " ++ title

/-- message template of the comment notification. -/
def commentedMessage (title : String) : String :=
  "commented on your recipe " ++ title

/-- message template of the reply notification. -/
def repliedMessage : String := "replied to your comment"

/-- the toggleLikeRecipe controller with the awaited Notification.create
modelled faithfully against notificationSchema. The create is awaited
before recipe.save(), so its rejection aborts the request before the like
is persisted; an error outcome leaves the stored recipe unchanged. -/
def toggleLikeRecipeRun (recipe? : Option Recipe) (userId : UserId) :
    Except AppErr (Recipe × List NotifDoc × Bool × Nat) :=
  match recipe? with
  | none => .error .notFound
  | some recipe =>
    let wasLiked := recipe.likes.any (fun i => i == userId)
    let newLikes := toggleLikes userId recipe.likes
    let recipe' := { recipe with likes := newLikes }
    if wasLiked then .ok (recipe', [], !wasLiked, newLikes.length)
    else if recipe.author == userId then .ok (recipe', [], !wasLiked, newLikes.length)
    else
      match notificationCreate ⟨recipe.author, userId, "like", none,
          some (likedMessage recipe.title), some recipe.id, none⟩ with
      | .error e => .error e
      | .ok n => .ok (recipe', [n], !wasLiked, newLikes.length)

/-- C4 (code bug): toggling twice does not restore the like set. User 2
is in the like list of sampleRecipe (author 1); the first toggle unlikes
and saves, but the second toggle reaches the awaited Notification.create
with type like and no title, which fails notificationSchema validation
(the enum admits only recipe_like and similar strings, and title is
required) before recipe.save() runs, so the request errors and the stored
like list stays empty instead of returning to its original contents. -/
theorem toggleLike_notification_aborts :
    toggleLikeRecipeRun (some sampleRecipe) 2 =
      .ok ({ sampleRecipe with likes := [] }, [], false, 0) ∧
    toggleLikeRecipeRun (some { sampleRecipe with likes := [] }) 2 =
      .error .validation ∧
    ({ sampleRecipe with likes := [] } : Recipe).likes ≠ sampleRecipe.likes :=
  ⟨rfl, rfl, by decide⟩

/-- outcome of the schema-faithful addComment run: the request result, the
comment store as persisted, and the notifications actually inserted. -/
structure AddCommentOutcome where
  result : Except AppErr Unit
  store : List Comment
  notifs : List NotifDoc
deriving Repr

/-- second notification block of addComment: re-fetch the parent comment
from the updated store and notify its author unless the commenter is that
author; the attempted insert is validated against notificationSchema. -/
def replyNotifStep (store2 : List Comment) (recipeId : RecipeId)
    (userId : UserId) (parentComment : Option CommentId) (newId : CommentId) :
    AddCommentOutcome :=
  match parentComment with
  | none => ⟨.ok (), store2, []⟩
  | some pid =>
    match findComment store2 pid with
    | none => ⟨.ok (), store2, []⟩
    | some parentDoc =>
      if parentDoc.author == userId then ⟨.ok (), store2, []⟩
      else
        match notificationCreate ⟨parentDoc.author, userId, "reply", none,
            some repliedMessage, some recipeId, some newId⟩ with
        | .error e => ⟨.error e, store2, []⟩
        | .ok n => ⟨.ok (), store2, [n]⟩

/-- the addComment controller with the awaited Notification.create calls
modelled faithfully against notificationSchema: Comment.create persists
the comment before either notification attempt, so a rejected
notification insert aborts the request after the comment is already in
the store. -/
def addCommentRun (recipes : List Recipe) (store : List Comment)
    (recipeId : RecipeId) (userId : UserId) (content : String)
    (parentComment : Option CommentId) (newId : CommentId) (now : Timestamp) :
    AddCommentOutcome :=
  match findRecipe recipes recipeId with
  | none => ⟨.error .notFound, store, []⟩
  | some recipe =>
    let parentOk : Bool :=
      match parentComment with
      | none => true
      | some pid =>
        match findComment store pid with
        | none => false
        | some parent => parent.recipe == recipeId
    if !parentOk then ⟨.error .validation, store, []⟩
    else
      let c : Comment := ⟨newId, content, userId, recipeId, parentComment, [], false, now⟩
      let store2 := store ++ [c]
      if recipe.author == userId then
        replyNotifStep store2 recipeId userId parentComment newId
      else
        match notificationCreate ⟨recipe.author, userId, "comment", none,
            some (commentedMessage recipe.title), some recipeId, some newId⟩ with
        | .error e => ⟨.error e, store2, []⟩
        | .ok n =>
          let step := replyNotifStep store2 recipeId userId parentComment newId
          ⟨step.result, step.store, n :: step.notifs⟩

/-- Counterexample data: a root comment on recipe 1 by its author 1. -/
def cexOwnRoot : Comment := ⟨1, "root text", 1, 1, none, [], false, 0⟩

/-- Counterexample data: a reply to cexOwnRoot by the same author 1. -/
def cexOwnReply : Comment := ⟨2, "reply text", 1, 1, some 1, [], false, 1⟩

/-- Counterexample data: the comment persisted by replying to cexOwnReply. -/
def cexOwnNested : Comment := ⟨3, cexContent, 1, 1, some 2, [], false, 2⟩

/-- C6 counterexample: the recipe author replies to their own reply
(comment 2, itself a reply whose parentComment is 1). The request
succeeds: the parent-is-root condition the claim states is never checked,
and no notification is attempted since the commenter authored both the
recipe and the parent; a comment nested two levels deep is persisted. -/
theorem addComment_reply_to_reply_cex :
    addCommentRun [sampleRecipe] [cexOwnRoot, cexOwnReply] 1 1 cexContent
        (some 2) 3 2 =
      ⟨.ok (), [cexOwnRoot, cexOwnReply, cexOwnNested], []⟩ ∧
    cexOwnReply.parentComment = some 1 ∧
    cexOwnNested.parentComment = some 2 :=
  ⟨rfl, rfl, rfl⟩

theorem findComment_append_left (store l2 : List Comment) (pid : CommentId)
    (parent : Comment) (h : findComment store pid = some parent) :
    findComment (store ++ l2) pid = some parent := by
  induction store with
  | nil => simp [findComment] at h
  | cons a as ih =>
    simp only [findComment, List.cons_append, List.find?] at h ⊢
    cases ha : (a.id == pid) with
    | true =>
      rw [ha] at h
      exact h
    | false =>
      rw [ha] at h
      exact ih h

theorem replyNotifStep_found (store2 : List Comment) (rid : RecipeId)
    (uid : UserId) (pid newId : CommentId) (parentDoc : Comment)
    (hp : findComment store2 pid = some parentDoc) :
    replyNotifStep store2 rid uid (some pid) newId =
      (if parentDoc.author == uid then ⟨.ok (), store2, []⟩
        else ⟨.error .validation, store2, []⟩) := by
  by_cases hau : (parentDoc.author == uid) = true
  · simp [replyNotifStep, hp, hau]
  · simp [replyNotifStep, hp, hau, notificationCreate]

theorem addCommentRun_valid (recipes : List Recipe) (store : List Comment)
    (rid : RecipeId) (uid : UserId) (content : String) (pid newId : CommentId)
    (now : Timestamp) (recipe : Recipe) (parent : Comment)
    (hr : findRecipe recipes rid = some recipe)
    (hp : findComment store pid = some parent)
    (hpr : parent.recipe = rid) :
    addCommentRun recipes store rid uid content (some pid) newId now =
      (if recipe.author == uid then
        replyNotifStep (store ++ [⟨newId, content, uid, rid, some pid, [], false, now⟩])
          rid uid (some pid) newId
      else
        ⟨.error .validation,
          store ++ [⟨newId, content, uid, rid, some pid, [], false, now⟩], []⟩) := by
  by_cases hau : (recipe.author == uid) = true
  · simp [addCommentRun, hr, hp, hpr, hau]
  · simp [addCommentRun, hr, hp, hpr, hau, notificationCreate]

/-- C6 amended: addComment with a non-null parentId inserts the comment
exactly when the parent comment exists and belongs to the same recipe;
the source never checks that the parent is a root comment, so replying to
a reply persists a comment nested more than one level deep, referencing
the given parent. The request then reports success exactly when the
commenter authored both the recipe and the parent comment, because any
attempted notification insert fails the notificationSchema validation
after the comment is already persisted. -/
theorem addCommentRun_parent_validation (recipes : List Recipe)
    (store : List Comment) (rid : RecipeId) (uid : UserId) (content : String)
    (pid newId : CommentId) (now : Timestamp) (recipe : Recipe)
    (hr : findRecipe recipes rid = some recipe) :
    (findComment store pid = none →
      addCommentRun recipes store rid uid content (some pid) newId now =
        ⟨.error .validation, store, []⟩) ∧
    (∀ parent, findComment store pid = some parent → parent.recipe ≠ rid →
      addCommentRun recipes store rid uid content (some pid) newId now =
        ⟨.error .validation, store, []⟩) ∧
    (∀ parent, findComment store pid = some parent → parent.recipe = rid →
      (addCommentRun recipes store rid uid content (some pid) newId now).store =
        store ++ [⟨newId, content, uid, rid, some pid, [], false, now⟩] ∧
      ((addCommentRun recipes store rid uid content (some pid) newId now).result =
          .ok () ↔ (recipe.author = uid ∧ parent.author = uid))) := by
  refine ⟨?_, ?_, ?_⟩
  · intro hp
    simp [addCommentRun, hr, hp]
  · intro parent hp hpr
    simp [addCommentRun, hr, hp, hpr]
  · intro parent hp hpr
    rw [addCommentRun_valid recipes store rid uid content pid newId now
      recipe parent hr hp hpr]
    have hp2 : findComment
        (store ++ [⟨newId, content, uid, rid, some pid, [], false, now⟩]) pid =
        some parent :=
      findComment_append_left store _ pid parent hp
    by_cases hau : (recipe.author == uid) = true
    · rw [if_pos hau, replyNotifStep_found _ rid uid pid newId parent hp2]
      by_cases hau2 : (parent.author == uid) = true
      · rw [if_pos hau2]
        exact ⟨rfl, by simp [beq_iff_eq.mp hau, beq_iff_eq.mp hau2]⟩
      · rw [if_neg hau2]
        refine ⟨rfl, ?_, ?_⟩
        · intro hc
          exact absurd hc (by simp)
        · rintro ⟨-, h2⟩
          exact absurd (beq_iff_eq.mpr h2) hau2
    · rw [if_neg hau]
      refine ⟨rfl, ?_, ?_⟩
      · intro hc
        exact absurd hc (by simp)
      · rintro ⟨h1, -⟩
        exact absurd (beq_iff_eq.mpr h1) hau

/-- Witness for addCommentRun_parent_validation at the counterexample
input: the self-authored reply to a reply is persisted and the request
succeeds exactly because commenter, recipe author and parent author agree. -/
theorem addCommentRun_parent_validation_witness :
    (addCommentRun [sampleRecipe] [cexOwnRoot, cexOwnReply] 1 1 cexContent
        (some 2) 3 2).store =
      [cexOwnRoot, cexOwnReply] ++ [⟨3, cexContent, 1, 1, some 2, [], false, 2⟩] ∧
    ((addCommentRun [sampleRecipe] [cexOwnRoot, cexOwnReply] 1 1 cexContent
        (some 2) 3 2).result = .ok () ↔
      (sampleRecipe.author = 1 ∧ cexOwnReply.author = 1)) :=
  (addCommentRun_parent_validation [sampleRecipe] [cexOwnRoot, cexOwnReply]
    1 1 cexContent 2 3 2 sampleRecipe rfl).2.2 cexOwnReply rfl rfl

end RecipeSharing
